import Mathlib

/-!
Verification of the capsule session layer of `mcp-memvid-state-service`
(`src/index.ts`).  The TypeScript source is shallowly embedded: JSON
argument values become the inductive `JValue`, JavaScript truthiness and
string idioms become explicit Lean functions, the process state
(storage-root directory, capsule files, handle cache) becomes the
`ServerState` record, and the external memvid engine becomes an explicit
record of functions (`Sdk`, `MemvidInstance`) whose calls may fail with a
message (`Except String`), modelling promise rejection.
-/

namespace Memvid

/-- A JSON-ish runtime value, modelling the `unknown` values found in the
tool-call argument map.  `undefined` is modelled as `Option.none` at use
sites. -/
inductive JValue where
  | jnull : JValue
  | jbool (b : Bool) : JValue
  | jnum (n : Int) : JValue
  | jstr (s : String) : JValue
  | jarr (elems : List JValue) : JValue
  | jobj (fields : List (String × JValue)) : JValue
  deriving Repr

/-- JavaScript truthiness of a value (`Boolean(v)`).  Numbers are embedded
as integers, so `NaN` is not modelled; arrays and objects are always
truthy. -/
def jsTruthy : JValue → Bool
  | .jnull => false
  | .jbool b => b
  | .jnum n => n != 0
  | .jstr s => s != ""
  | .jarr _ => true
  | .jobj _ => true

/-- Truthiness of a possibly-`undefined` value. -/
def jsTruthyO : Option JValue → Bool
  | some v => jsTruthy v
  | none => false

/-- JavaScript strict equality test against the literal `true`
(`v === true`). -/
def jsStrictEqTrue : Option JValue → Bool
  | some (.jbool true) => true
  | _ => false

/-- The JavaScript `a || b` idiom on a possibly-`undefined` left operand:
the left value if truthy, otherwise the default. -/
def jsOrJ (v : Option JValue) (d : JValue) : JValue :=
  match v with
  | some x => if jsTruthy x then x else d
  | none => d

/-- The JavaScript `a || b` idiom on optional strings (environment
variables): the left value if truthy (non-empty), otherwise the right. -/
def jsOrO (a b : Option String) : Option String :=
  match a with
  | some s => if s != "" then some s else b
  | none => b

/-- Truthiness of an optional string (an environment variable). -/
def jsTruthyS : Option String → Bool
  | some s => s != ""
  | none => false

/-- The JavaScript `a || d` idiom on an optional string with a string
default. -/
def jsOrS (v : Option String) (d : String) : String :=
  match v with
  | some s => if s != "" then s else d
  | none => d

mutual

/-- Template-literal stringification of a value. For arrays this joins the
rendered elements with commas, approximating `Array.prototype.toString`
(nested `null`/`undefined` render differently in JS; no claim depends on
this). -/
def jsTemplateV : JValue → String
  | .jnull => "null"
  | .jbool b => if b then "true" else "false"
  | .jnum n => toString n
  | .jstr s => s
  | .jarr elems => jsTemplateL elems
  | .jobj _ => "[object Object]"

/-- Comma-join of rendered array elements. -/
def jsTemplateL : List JValue → String
  | [] => ""
  | [x] => jsTemplateV x
  | x :: xs => jsTemplateV x ++ "," ++ jsTemplateL xs

end

/-- Template-literal stringification of a possibly-`undefined` value
(as in a backquoted interpolation of a raw argument). -/
def jsTemplate : Option JValue → String
  | some v => jsTemplateV v
  | none => "undefined"

/-- Characters treated as whitespace by `String.prototype.trim`
(ASCII subset; the Unicode space characters are not modelled as the
program never produces them around the trimmed positions). -/
def isJsWhitespace (c : Char) : Bool :=
  c == ' ' || c == '\t' || c == '\n' || c == '\r' || c == '\x0b' || c == '\x0c'

/-- The JavaScript `s.trim()`: remove leading and trailing whitespace. -/
def jsTrim (s : String) : String :=
  ⟨List.reverse (List.dropWhile isJsWhitespace
    (List.reverse (List.dropWhile isJsWhitespace s.data)))⟩

/-- The JavaScript `s.endsWith(p)`. -/
def jsEndsWith (s p : String) : Bool :=
  p.data.isSuffixOf s.data

/-- Replace the first occurrence of pattern `p` (a plain string, as in
`String.prototype.replace` with a string pattern) by `r` in the character
list `l`. -/
def replaceFirstAux (p r : List Char) : List Char → List Char
  | [] => []
  | c :: cs =>
    if p.isPrefixOf (c :: cs) then r ++ (c :: cs).drop p.length
    else c :: replaceFirstAux p r cs

/-- The JavaScript `s.replace(p, r)` with a string pattern: only the FIRST
occurrence of `p` is replaced. -/
def jsReplaceFirst (s p r : String) : String :=
  ⟨replaceFirstAux p.data r.data s.data⟩

/-- The JavaScript `h.replace(/\/$/, "")`: remove a single trailing
slash. -/
def jsStripTrailingSlash (s : String) : String :=
  if jsEndsWith s "/" then ⟨s.data.dropLast⟩ else s

/-- Strip a prefix from a string, used to model `readdirSync` of the
capsules directory over a state that stores full file paths. -/
def stripPrefixStr (p s : String) : Option String :=
  if p.data.isPrefixOf s.data then some ⟨s.data.drop p.data.length⟩ else none

/-! ## Environment and embedding configuration (`index.ts` lines 42-119) -/

/-- The process environment variables read by the program, plus the home
directory.  `none` models an unset variable. -/
structure Env where
  ollamaHost : Option String := none
  ollamaBaseUrl : Option String := none
  memvidEmbeddingModel : Option String := none
  openaiBaseUrl : Option String := none
  openaiApiKey : Option String := none
  xdgDataHome : Option String := none
  homedir : String := "/home/user"
  deriving Repr

/-- `const OLLAMA_HOST = process.env.OLLAMA_HOST || process.env.OLLAMA_BASE_URL`. -/
def OLLAMA_HOST (env : Env) : Option String :=
  jsOrO env.ollamaHost env.ollamaBaseUrl

/-- `const DEFAULT_EMBEDDING_MODEL = process.env.MEMVID_EMBEDDING_MODEL || "bge-small"`. -/
def DEFAULT_EMBEDDING_MODEL (env : Env) : String :=
  jsOrS env.memvidEmbeddingModel "bge-small"

/-- `configureOllama()`: returns the value of `process.env.OPENAI_BASE_URL`
after the function runs.  The base URL is set from the Ollama host only
when the host is truthy and no base URL is truthy; the derived URL keeps a
host already ending in `/v1`, otherwise strips one trailing slash and
appends `/v1`. -/
def configureOllama (env : Env) : Option String :=
  if jsTruthyS (OLLAMA_HOST env) && !(jsTruthyS env.openaiBaseUrl) then
    let host := (OLLAMA_HOST env).getD ""
    some (if jsEndsWith host "/v1" then host else jsStripTrailingSlash host ++ "/v1")
  else env.openaiBaseUrl

/-- `getEmbeddingModel` with the override absent or falsy: the Ollama
routing substitution, else the configured default. -/
def getEmbeddingModelDefault (env : Env) : JValue :=
  if jsTruthyS (OLLAMA_HOST env) && (DEFAULT_EMBEDDING_MODEL env == "bge-small") then
    .jstr "openai-small"
  else .jstr (DEFAULT_EMBEDDING_MODEL env)

/-- `getEmbeddingModel(requested?)`. The TypeScript cast
`args.embedding_model as string | undefined` has no runtime effect, so the
requested override is an arbitrary value; `if (requested) return requested`
returns it whenever truthy. -/
def getEmbeddingModel (env : Env) (requested : Option JValue) : JValue :=
  match requested with
  | some v => if jsTruthy v then v else getEmbeddingModelDefault env
  | none => getEmbeddingModelDefault env

/-- `const XDG_DATA_HOME = process.env.XDG_DATA_HOME || join(homedir(), ".local", "share")`. -/
def XDG_DATA_HOME (env : Env) : String :=
  jsOrS env.xdgDataHome (env.homedir ++ "/.local/share")

/-- `const CAPSULES_DIR = join(XDG_DATA_HOME, "memvid", "capsules")`.
`path.join` is modelled as separator concatenation (no argument here
introduces `..` segments or duplicate separators). -/
def CAPSULES_DIR (env : Env) : String :=
  XDG_DATA_HOME env ++ "/memvid/capsules"

/-! ## Engine interface and search results (`index.ts` lines 15-40) -/

/-- The `SearchResult` interface.  JavaScript numbers are embedded as
integers: only the presence of `score` and its textual interpolation
matter to the program. -/
structure SearchResult where
  id : Option String := none
  title : Option String := none
  text : Option String := none
  snippet : Option String := none
  preview : Option String := none
  score : Option Int := none
  metadata : Option (List (String × JValue)) := none

/-- The return type of the engine's `find`:
`SearchResult[] | { hits: SearchResult[] }`.  In the wrapped form the
`hits` field may be absent. -/
inductive FindPayload where
  | arr (results : List SearchResult) : FindPayload
  | obj (hits : Option (List SearchResult)) : FindPayload

/-- `normalizeResults`: `Array.isArray(results) ? results : results.hits || []`
(an array is truthy even when empty, so a present empty `hits` is returned
as-is, which coincides with the `[]` default). -/
def normalizeResults : FindPayload → List SearchResult
  | .arr results => results
  | .obj hits => match hits with
    | some l => l
    | none => []

/-- The argument object of `MemvidInstance.put`.  The handler passes the
raw argument values through the no-op TypeScript casts, so the fields are
raw values. -/
structure PutData where
  text : Option JValue := none
  title : Option JValue := none
  labels : Option JValue := none
  metadata : Option JValue := none
  enableEmbedding : JValue := .jbool false
  embeddingModel : Option JValue := none

/-- Options of `MemvidInstance.find`.  `k` is the raw limit value the
handler computes; `mode` is one of `"auto" | "lex" | "sem"` or absent. -/
structure FindOptions where
  k : JValue
  mode : Option String := none

/-- Options of `MemvidInstance.timeline`. -/
structure TimelineOptions where
  k : JValue

/-- An open capsule handle: the `MemvidInstance` interface.  `Promise`
results are embedded as `Except String`, a rejection carrying its message.
`timeline` is an optional capability (`typeof capsule.timeline === "function"`). -/
structure MemvidInstance where
  put : PutData → Except String Unit
  find : Option JValue → FindOptions → Except String FindPayload
  timeline : Option (TimelineOptions → Except String (List SearchResult))

/-- The `@memvid/sdk` entry points `create(path)` and `use(kind, path)`. -/
structure Sdk where
  create : String → Except String MemvidInstance
  use : String → String → Except String MemvidInstance

/-- Process-wide mutable state: whether the capsules directory exists,
the set of existing capsule file paths, and the open-handle cache
(`capsuleCache`), keyed by the raw `name` value passed to `getCapsule`. -/
structure ServerState where
  rootExists : Bool := true
  fs : List String := []
  cache : List (Option JValue × MemvidInstance) := []

/-- `ensureCapsuleDir()`: create the capsules directory if absent
(`mkdirSync` failure would be an exception; the claims do not exercise it,
so creation is modelled as always succeeding). -/
def ensureCapsuleDir (st : ServerState) : ServerState :=
  if st.rootExists then st else { st with rootExists := true }

/-! ## Path resolution (`index.ts` lines 115-119) -/

/-- Membership in the character class `[a-zA-Z0-9_-]` of the sanitizing
regular expression. -/
def isSafeChar (c : Char) : Bool :=
  ('a' ≤ c && c ≤ 'z') || ('A' ≤ c && c ≤ 'Z') || ('0' ≤ c && c ≤ '9') ||
    c == '_' || c == '-'

/-- One step of `name.replace(/[^a-zA-Z0-9_-]/g, "_")`. -/
def sanitizeChar (c : Char) : Char :=
  if isSafeChar c then c else '_'

/-- `name.replace(/[^a-zA-Z0-9_-]/g, "_")`: every character outside the
class is replaced by an underscore. -/
def sanitizeName (s : String) : String :=
  ⟨s.data.map sanitizeChar⟩

/-- JavaScript SameValueZero equality, used for `Map` keys.  Composite
values compare by reference in JavaScript; this structural approximation
is exercised only at primitive keys. -/
def jvalEqKey : Option JValue → Option JValue → Bool
  | none, none => true
  | some (.jnull), some (.jnull) => true
  | some (.jbool a), some (.jbool b) => a == b
  | some (.jnum a), some (.jnum b) => a == b
  | some (.jstr a), some (.jstr b) => a == b
  | _, _ => false

/-- `capsuleCache.get(name)`. -/
def cacheGet (cache : List (Option JValue × MemvidInstance)) (k : Option JValue) :
    Option MemvidInstance :=
  (cache.find? (fun e => jvalEqKey e.1 k)).map (·.2)

/-- `capsuleCache.set(name, instance)`: replace any entry with the same
key (entry order is irrelevant to lookups). -/
def cacheSet (cache : List (Option JValue × MemvidInstance)) (k : Option JValue)
    (inst : MemvidInstance) : List (Option JValue × MemvidInstance) :=
  (k, inst) :: cache.filter (fun e => !jvalEqKey e.1 k)

/-- `capsuleCache.delete(name)`. -/
def cacheDelete (cache : List (Option JValue × MemvidInstance)) (k : Option JValue) :
    List (Option JValue × MemvidInstance) :=
  cache.filter (fun e => !jvalEqKey e.1 k)

/-- Using a string method (`.replace`) on a raw argument value: succeeds
with the sanitized name for strings and raises a `TypeError` otherwise
(the precise TypeError message text is immaterial to the program). -/
def sanitizeArg : Option JValue → Except String String
  | some (.jstr s) => .ok (sanitizeName s)
  | v => .error ("TypeError: " ++ jsTemplate v ++ ".replace is not a function")

/-- `getCapsulePath(name)`: ensures the capsules directory, sanitizes the
name (a `TypeError` on a non-string propagates to the caller), appends the
`.mv2` extension and joins with the storage root. -/
def getCapsulePath (env : Env) (nameV : Option JValue) (st : ServerState) :
    Except String String × ServerState :=
  match sanitizeArg nameV with
  | .error e => (.error e, ensureCapsuleDir st)
  | .ok safeName =>
    (.ok (CAPSULES_DIR env ++ "/" ++ safeName ++ ".mv2"), ensureCapsuleDir st)

/-! ## Handle cache (`index.ts` lines 121-149) -/

/-- The wrapping applied by `getCapsule`'s `catch` block:
`Failed to access capsule '<name>': <message>`. -/
def accessErr (nameV : Option JValue) (msg : String) : String :=
  "Failed to access capsule '" ++ jsTemplate nameV ++ "': " ++ msg

/-- The message of the `does not exist` error thrown inside `getCapsule`. -/
def notExistMsg (nameV : Option JValue) : String :=
  "Capsule '" ++ jsTemplate nameV ++ "' does not exist"

/-- `getCapsule(name, createIfNotExists)`.  A cached handle is returned
unchanged.  Otherwise the path is resolved (outside the `try`, so a
sanitize `TypeError` propagates unwrapped), and the `try` block either
throws the not-found error, creates, or opens; every failure inside the
`try`, including the not-found throw, is wrapped by the `catch` into the
access-error message.  On success the handle is cached.  A successful
engine `create` materializes the capsule file. -/
def getCapsule (env : Env) (sdk : Sdk) (nameV : Option JValue)
    (createIfNotExists : Bool) (st : ServerState) :
    Except String MemvidInstance × ServerState :=
  match cacheGet st.cache nameV with
  | some inst => (.ok inst, st)
  | none =>
    match getCapsulePath env nameV st with
    | (.error e, st1) => (.error e, st1)
    | (.ok path, st1) =>
      if !(st1.fs.contains path) then
        if !createIfNotExists then
          (.error (accessErr nameV (notExistMsg nameV)), st1)
        else
          match sdk.create path with
          | .ok inst =>
            (.ok inst, { st1 with fs := path :: st1.fs,
                                  cache := cacheSet st1.cache nameV inst })
          | .error e => (.error (accessErr nameV e), st1)
      else
        match sdk.use "basic" path with
        | .ok inst => (.ok inst, { st1 with cache := cacheSet st1.cache nameV inst })
        | .error e => (.error (accessErr nameV e), st1)

/-- The names found by `readdirSync(CAPSULES_DIR)`: this layer only ever
writes paths of the form `CAPSULES_DIR/<file>`, so the directory listing
is the set of stored paths with the root prefix stripped. -/
def readdirCapsules (env : Env) (st : ServerState) : List String :=
  st.fs.filterMap (stripPrefixStr (CAPSULES_DIR env ++ "/"))

/-- `listCapsules()` applied to the directory listing: keep files ending
in `.mv2` and remove the FIRST occurrence of `.mv2` from each
(`f.replace(".mv2", "")` with a string pattern). -/
def listCapsules (files : List String) : List String :=
  (files.filter (fun f => jsEndsWith f ".mv2")).map (fun f => jsReplaceFirst f ".mv2" "")

/-! ## Result rendering (`index.ts` lines 384-389) -/

/-- `const title = result.title || "Untitled"`. -/
def titleStr (r : SearchResult) : String :=
  jsOrS r.title "Untitled"

/-- `const content = result.snippet || result.text || result.preview || ""`. -/
def contentStr (r : SearchResult) : String :=
  jsOrS r.snippet (jsOrS r.text (jsOrS r.preview ""))

/-- `const score = result.score !== undefined ? \x60Score: ${result.score}\x60 : ""`. -/
def scoreStr (r : SearchResult) : String :=
  match r.score with
  | some n => "Score: " ++ toString n
  | none => ""

/-- `formatResult(result)`. -/
def formatResult (r : SearchResult) : String :=
  jsTrim ("[" ++ titleStr r ++ "]\n" ++ contentStr r ++ "\n" ++ scoreStr r)

/-! ## Responses and arguments -/

/-- One element of a tool-call response's `content` array. -/
structure ContentItem where
  type : String
  text : String
  deriving DecidableEq, Repr

/-- The response envelope `{ content: Array<{ type: "text"; text: string }> }`. -/
structure Response where
  content : List ContentItem
  deriving DecidableEq, Repr

/-- The response shape produced by every handler:
`{ content: [{ type: "text", text }] }`. -/
def textResponse (text : String) : Response :=
  ⟨[⟨"text", text⟩]⟩

/-- A handler step returning a text response without throwing. -/
def okText (text : String) (st : ServerState) :
    Except String Response × ServerState :=
  (.ok (textResponse text), st)

/-- A handler step raising an exception with the given message. -/
def errS (msg : String) (st : ServerState) :
    Except String Response × ServerState :=
  (.error msg, st)

/-- The argument map of a tool call, restricted to the keys the
dispatcher reads (other keys are never accessed).  Every field holds a
raw value; `none` models an absent key. -/
structure Args where
  capsule : Option JValue := none
  text : Option JValue := none
  title : Option JValue := none
  tags : Option JValue := none
  metadata : Option JValue := none
  enable_embedding : Option JValue := none
  embedding_model : Option JValue := none
  confirm : Option JValue := none
  query : Option JValue := none
  limit : Option JValue := none
  name : Option JValue := none

/-! ## JSON rendering for the structured responses -/

/-- A double-quoted JSON string (escaping of special characters inside the
value is not modelled; no claim exercises it). -/
def jsonQuote (s : String) : String :=
  "\"" ++ s ++ "\""

mutual

/-- Plain `JSON.stringify` of a value (without indentation for nested
values; the program only pretty-prints flat objects built by itself). -/
def jsonRender : JValue → String
  | .jnull => "null"
  | .jbool b => if b then "true" else "false"
  | .jnum n => toString n
  | .jstr s => jsonQuote s
  | .jarr elems => "[" ++ jsonRenderL elems ++ "]"
  | .jobj fields => "\x7b" ++ jsonRenderF fields ++ "\x7d"

/-- Comma-join of rendered array elements. -/
def jsonRenderL : List JValue → String
  | [] => ""
  | [x] => jsonRender x
  | x :: xs => jsonRender x ++ "," ++ jsonRenderL xs

/-- Comma-join of rendered object fields. -/
def jsonRenderF : List (String × JValue) → String
  | [] => ""
  | [(k, v)] => jsonQuote k ++ ":" ++ jsonRender v
  | (k, v) :: fs => jsonQuote k ++ ":" ++ jsonRender v ++ "," ++ jsonRenderF fs

end

/-- `JSON.stringify({ name, path, exists, capsulesDirectory }, null, 2)`:
a field whose value is `undefined` is omitted by `JSON.stringify`. -/
def capsuleInfoJson (nameV : Option JValue) (path : String) (ex : Bool)
    (dir : String) : String :=
  let nameField := match nameV with
    | none => ""
    | some v => "  \"name\": " ++ jsonRender v ++ ",\n"
  "\x7b\n" ++ nameField ++
    "  \"path\": " ++ jsonQuote path ++ ",\n" ++
    "  \"exists\": " ++ (if ex then "true" else "false") ++ ",\n" ++
    "  \"capsulesDirectory\": " ++ jsonQuote dir ++ "\n\x7d"

/-- `getEmbeddingConfig()` rendered by `JSON.stringify(config, null, 2)`
(nested objects keep the flat rendering; the exact text is not load-bearing
for any claim). -/
def embeddingConfigJson (env : Env) : String :=
  "\x7b\n" ++
    "  \"defaultModel\": " ++ jsonQuote (DEFAULT_EMBEDDING_MODEL env) ++ ",\n" ++
    "  \"effectiveModel\": " ++ jsonRender (getEmbeddingModel env none) ++ ",\n" ++
    "  \"ollamaHost\": " ++ (match OLLAMA_HOST env with
      | some h => jsonQuote h
      | none => "null") ++ ",\n" ++
    "  \"openaiBaseUrl\": " ++ (match env.openaiBaseUrl with
      | some u => if u != "" then jsonQuote u else "null"
      | none => "null") ++ ",\n" ++
    "  \"openaiKeySet\": " ++ (if jsTruthyS env.openaiApiKey then "true" else "false") ++ ",\n" ++
    "  \"supportedModels\": " ++ jsonRender (.jobj
      [("local", .jarr [.jstr "bge-small", .jstr "bge-base", .jstr "nomic", .jstr "gte-large"]),
       ("openai", .jarr [.jstr "openai-small", .jstr "openai-large"]),
       ("note", .jstr "For Ollama, set OLLAMA_HOST and use 'openai-small' model")]) ++ "\n\x7d"

/-! ## Tool handlers (`index.ts` lines 391-588) -/

/-- The `store_memory` case: open or create the capsule, resolve the
embedding model when embedding is requested, call `put`, and build the
confirmation text. -/
def handleStoreMemory (env : Env) (sdk : Sdk) (args : Args) (st : ServerState) :
    Except String Response × ServerState :=
  match getCapsule env sdk args.capsule true st with
  | (.error e, st1) => errS e st1
  | (.ok inst, st1) =>
    let enableEmbedding := jsOrJ args.enable_embedding (.jbool false)
    let embeddingModel := if jsTruthy enableEmbedding then
        some (getEmbeddingModel env args.embedding_model)
      else none
    match inst.put { text := args.text, title := args.title, labels := args.tags,
                     metadata := args.metadata, enableEmbedding := enableEmbedding,
                     embeddingModel := embeddingModel } with
    | .error e => errS e st1
    | .ok _ =>
      let r0 := "Stored memory in capsule '" ++ jsTemplate args.capsule ++ "'"
      let r1 := if jsTruthyO args.title then
          r0 ++ " with title '" ++ jsTemplate args.title ++ "'"
        else r0
      let r2 := if jsTruthy enableEmbedding then
          r1 ++ " (embedded with " ++ jsTemplate embeddingModel ++ ")"
        else r1
      okText r2 st1

/-- The `delete_capsule` case: without `confirm === true` return the
not-confirmed text untouched; otherwise resolve the path, report a missing
capsule, or evict the cache entry and unlink the file. -/
def handleDeleteCapsule (env : Env) (args : Args) (st : ServerState) :
    Except String Response × ServerState :=
  if !(jsStrictEqTrue args.confirm) then
    okText "Deletion not confirmed. Set 'confirm' to true to delete." st
  else
    match getCapsulePath env args.capsule st with
    | (.error e, st1) => errS e st1
    | (.ok path, st1) =>
      if !(st1.fs.contains path) then
        okText ("Capsule '" ++ jsTemplate args.capsule ++ "' does not exist") st1
      else
        okText ("Deleted capsule '" ++ jsTemplate args.capsule ++ "'")
          { st1 with cache := cacheDelete st1.cache args.capsule,
                     fs := st1.fs.erase path }

/-- The shared body of the three search cases (`semantic_search`,
`text_search`, `smart_search`), which differ only in the mode flag. -/
def handleSearch (env : Env) (sdk : Sdk) (mode : String) (args : Args)
    (st : ServerState) : Except String Response × ServerState :=
  match getCapsule env sdk args.capsule false st with
  | (.error e, st1) => errS e st1
  | (.ok inst, st1) =>
    match inst.find args.query { k := jsOrJ args.limit (.jnum 10), mode := some mode } with
    | .error e => errS e st1
    | .ok payload =>
      let hits := normalizeResults payload
      okText (if hits.length > 0 then
          String.intercalate "\n\n---\n\n" (hits.map formatResult)
        else "No results found") st1

/-- The `recent_memories` case: prefer the `timeline` capability when the
handle has it, else fall back to an unfiltered `find`. -/
def handleRecentMemories (env : Env) (sdk : Sdk) (args : Args) (st : ServerState) :
    Except String Response × ServerState :=
  match getCapsule env sdk args.capsule false st with
  | (.error e, st1) => errS e st1
  | (.ok inst, st1) =>
    match inst.timeline with
    | some tl =>
      match tl { k := jsOrJ args.limit (.jnum 10) } with
      | .error e => errS e st1
      | .ok hits =>
        okText (if hits.length > 0 then
            String.intercalate "\n\n---\n\n" (hits.map formatResult)
          else "No memories found") st1
    | none =>
      match inst.find none { k := jsOrJ args.limit (.jnum 10), mode := none } with
      | .error e => errS e st1
      | .ok payload =>
        let hits := normalizeResults payload
        okText (if hits.length > 0 then
            String.intercalate "\n\n---\n\n" (hits.map formatResult)
          else "No memories found") st1

/-- The `list_capsules` case. -/
def handleListCapsules (env : Env) (st : ServerState) :
    Except String Response × ServerState :=
  let st1 := ensureCapsuleDir st
  let capsules := listCapsules (readdirCapsules env st1)
  okText (if capsules.length > 0 then
      "Available capsules:\n" ++
        String.intercalate "\n" (capsules.map (fun c => "  - " ++ c)) ++
        "\n\nStorage: " ++ CAPSULES_DIR env
    else "No capsules found.\nStorage: " ++ CAPSULES_DIR env) st1

/-- The `create_capsule` case. -/
def handleCreateCapsule (env : Env) (sdk : Sdk) (args : Args) (st : ServerState) :
    Except String Response × ServerState :=
  match getCapsulePath env args.name st with
  | (.error e, st1) => errS e st1
  | (.ok path, st1) =>
    if st1.fs.contains path then
      okText ("Capsule '" ++ jsTemplate args.name ++ "' already exists at " ++ path) st1
    else
      match getCapsule env sdk args.name true st1 with
      | (.error e, st2) => errS e st2
      | (.ok _, st2) =>
        okText ("Created capsule '" ++ jsTemplate args.name ++ "' at " ++ path) st2

/-- The `capsule_info` case. -/
def handleCapsuleInfo (env : Env) (args : Args) (st : ServerState) :
    Except String Response × ServerState :=
  match getCapsulePath env args.capsule st with
  | (.error e, st1) => errS e st1
  | (.ok path, st1) =>
    okText (capsuleInfoJson args.capsule path (st1.fs.contains path) (CAPSULES_DIR env)) st1

/-- The `embedding_config` case. -/
def handleEmbeddingConfig (env : Env) (st : ServerState) :
    Except String Response × ServerState :=
  okText (embeddingConfigJson env) st

/-- The `switch (name)` body of `handleToolCall`, before the surrounding
`try`/`catch`: an `.error` is an exception about to reach the `catch`. -/
def dispatch (env : Env) (sdk : Sdk) (name : String) (args : Args)
    (st : ServerState) : Except String Response × ServerState :=
  match name with
  | "store_memory" => handleStoreMemory env sdk args st
  | "delete_capsule" => handleDeleteCapsule env args st
  | "semantic_search" => handleSearch env sdk "sem" args st
  | "text_search" => handleSearch env sdk "lex" args st
  | "smart_search" => handleSearch env sdk "auto" args st
  | "recent_memories" => handleRecentMemories env sdk args st
  | "list_capsules" => handleListCapsules env st
  | "create_capsule" => handleCreateCapsule env sdk args st
  | "capsule_info" => handleCapsuleInfo env args st
  | "embedding_config" => handleEmbeddingConfig env st
  | _ => okText ("Unknown tool: " ++ name) st

/-- The recognized operation names. -/
def isKnownTool (name : String) : Bool :=
  ["store_memory", "delete_capsule", "semantic_search", "text_search",
   "smart_search", "recent_memories", "list_capsules", "create_capsule",
   "capsule_info", "embedding_config"].contains name

/-- `handleToolCall(name, args)`: the dispatcher with its `catch` block,
which converts any exception into an `Error: <message>` text response. -/
def handleToolCall (env : Env) (sdk : Sdk) (name : String) (args : Args)
    (st : ServerState) : Response × ServerState :=
  match dispatch env sdk name args st with
  | (.ok r, st1) => (r, st1)
  | (.error msg, st1) => (textResponse ("Error: " ++ msg), st1)

/-! ## Concrete fixtures used to instantiate theorems -/

/-- An engine whose create/open calls always reject. -/
def sdkFail : Sdk :=
  ⟨fun _ => .error "engine failure", fun _ _ => .error "engine failure"⟩

/-- A handle whose operations always succeed with empty results and which
lacks the `timeline` capability. -/
def instOk : MemvidInstance :=
  ⟨fun _ => .ok (), fun _ _ => .ok (.arr []), none⟩

/-- An engine whose create/open calls always yield `instOk`. -/
def sdkOk : Sdk :=
  ⟨fun _ => .ok instOk, fun _ _ => .ok instOk⟩

/-- A fresh state: no capsules directory, no files, no cached handles. -/
def stFresh : ServerState :=
  { rootExists := false, fs := [], cache := [] }

/-- Every `.ok` outcome of a handler carries a single-text response. -/
def OkShape (x : Except String Response × ServerState) : Prop :=
  ∀ r st1, x = (.ok r, st1) → ∃ s, r = textResponse s

/-! ## Helper lemmas -/

/-- `ensureCapsuleDir` only touches the root-exists flag. -/
theorem ensureCapsuleDir_fs (st : ServerState) : (ensureCapsuleDir st).fs = st.fs := by
  unfold ensureCapsuleDir
  split <;> rfl

/-- `ensureCapsuleDir` leaves the handle cache unchanged. -/
theorem ensureCapsuleDir_cache (st : ServerState) :
    (ensureCapsuleDir st).cache = st.cache := by
  unfold ensureCapsuleDir
  split <;> rfl

/-- Sanitized characters land in the safe class. -/
theorem isSafeChar_sanitizeChar (c : Char) : isSafeChar (sanitizeChar c) = true := by
  unfold sanitizeChar
  split
  · assumption
  · decide

/-- `trim` absorbs a trailing newline. -/
theorem jsTrim_append_newline (s : String) : jsTrim (s ++ "\n") = jsTrim s := by
  unfold jsTrim
  rw [String.data_append]
  have hd : ("\n" : String).data = ['\n'] := rfl
  rw [hd, List.dropWhile_append]
  by_cases h : (List.dropWhile isJsWhitespace s.data).isEmpty
  · simp [h]
    have h2 : List.dropWhile isJsWhitespace ['\n'] = [] := by decide
    simp [h2, List.isEmpty_iff.mp h]
  · simp [h, List.reverse_append]
    have h3 : isJsWhitespace '\n' = true := by decide
    simp [List.dropWhile_cons, h3]

/-- A falsy limit makes the `|| 10` idiom produce `10`. -/
theorem jsOrJ_falsy (v : Option JValue) (d : JValue) (h : jsTruthyO v = false) :
    jsOrJ v d = d := by
  unfold jsOrJ
  cases v with
  | none => rfl
  | some x =>
    simp only [jsTruthyO] at h
    simp [h]

/-- Removing the first `.mv2` from a dot-free name followed by the
extension recovers the name. -/
theorem replaceFirstAux_strip (l : List Char) (h : ∀ c ∈ l, c ≠ '.') :
    replaceFirstAux ".mv2".data [] (l ++ ".mv2".data) = l := by
  induction l with
  | nil => rfl
  | cons c cs ih =>
    have hc : ('.' == c) = false := by
      have hne := h c (List.mem_cons_self c cs)
      simp only [beq_eq_false_iff_ne]
      exact fun hh => hne hh.symm
    have hrest : ∀ x ∈ cs, x ≠ '.' := fun x hx => h x (List.mem_cons_of_mem c hx)
    rw [List.cons_append]
    unfold replaceFirstAux
    have hpre : (".mv2".data.isPrefixOf (c :: (cs ++ ".mv2".data))) = false := by
      show (('.' :: "mv2".data).isPrefixOf (c :: (cs ++ ".mv2".data))) = false
      simp [List.isPrefixOf, hc]
    rw [hpre]
    simp [ih hrest]

/-- A name followed by the extension ends with the extension. -/
theorem jsEndsWith_append_ext (g : String) : jsEndsWith (g ++ ".mv2") ".mv2" = true := by
  unfold jsEndsWith
  rw [String.data_append]
  exact List.isSuffixOf_iff_suffix.mpr (List.suffix_append g.data ".mv2".data)

/-- `okText` satisfies the response shape. -/
theorem okShape_okText (s : String) (st : ServerState) : OkShape (okText s st) := by
  intro r st1 h
  simp only [okText, Prod.mk.injEq, Except.ok.injEq] at h
  exact ⟨s, h.1.symm⟩

/-- `errS` never produces an `.ok` outcome. -/
theorem okShape_errS (m : String) (st : ServerState) : OkShape (errS m st) := by
  intro r st1 h
  simp [errS] at h

/-- Shape of the `store_memory` handler. -/
theorem okShape_store (env : Env) (sdk : Sdk) (args : Args) (st : ServerState) :
    OkShape (handleStoreMemory env sdk args st) := by
  intro r st1 h
  simp only [handleStoreMemory] at h
  split at h
  · exact okShape_errS _ _ _ _ h
  · split at h
    · exact okShape_errS _ _ _ _ h
    · exact okShape_okText _ _ _ _ h

/-- Shape of the `delete_capsule` handler. -/
theorem okShape_delete (env : Env) (args : Args) (st : ServerState) :
    OkShape (handleDeleteCapsule env args st) := by
  intro r st1 h
  simp only [handleDeleteCapsule] at h
  split at h
  · exact okShape_okText _ _ _ _ h
  · split at h
    · exact okShape_errS _ _ _ _ h
    · split at h
      · exact okShape_okText _ _ _ _ h
      · exact okShape_okText _ _ _ _ h

/-- Shape of the shared search handler. -/
theorem okShape_search (env : Env) (sdk : Sdk) (mode : String) (args : Args)
    (st : ServerState) : OkShape (handleSearch env sdk mode args st) := by
  intro r st1 h
  simp only [handleSearch] at h
  split at h
  · exact okShape_errS _ _ _ _ h
  · split at h
    · exact okShape_errS _ _ _ _ h
    · exact okShape_okText _ _ _ _ h

/-- Shape of the `recent_memories` handler. -/
theorem okShape_recent (env : Env) (sdk : Sdk) (args : Args) (st : ServerState) :
    OkShape (handleRecentMemories env sdk args st) := by
  intro r st1 h
  simp only [handleRecentMemories] at h
  split at h
  · exact okShape_errS _ _ _ _ h
  · split at h
    · split at h
      · exact okShape_errS _ _ _ _ h
      · exact okShape_okText _ _ _ _ h
    · split at h
      · exact okShape_errS _ _ _ _ h
      · exact okShape_okText _ _ _ _ h

/-- Shape of the `list_capsules` handler. -/
theorem okShape_list (env : Env) (st : ServerState) :
    OkShape (handleListCapsules env st) := by
  intro r st1 h
  simp only [handleListCapsules] at h
  exact okShape_okText _ _ _ _ h

/-- Shape of the `create_capsule` handler. -/
theorem okShape_create (env : Env) (sdk : Sdk) (args : Args) (st : ServerState) :
    OkShape (handleCreateCapsule env sdk args st) := by
  intro r st1 h
  simp only [handleCreateCapsule] at h
  split at h
  · exact okShape_errS _ _ _ _ h
  · split at h
    · exact okShape_okText _ _ _ _ h
    · split at h
      · exact okShape_errS _ _ _ _ h
      · exact okShape_okText _ _ _ _ h

/-- Shape of the `capsule_info` handler. -/
theorem okShape_info (env : Env) (args : Args) (st : ServerState) :
    OkShape (handleCapsuleInfo env args st) := by
  intro r st1 h
  simp only [handleCapsuleInfo] at h
  split at h
  · exact okShape_errS _ _ _ _ h
  · exact okShape_okText _ _ _ _ h

/-- Shape of the `embedding_config` handler. -/
theorem okShape_config (env : Env) (st : ServerState) :
    OkShape (handleEmbeddingConfig env st) := by
  intro r st1 h
  simp only [handleEmbeddingConfig] at h
  exact okShape_okText _ _ _ _ h

/-- Shape of the whole dispatcher body. -/
theorem okShape_dispatch (env : Env) (sdk : Sdk) (name : String) (args : Args)
    (st : ServerState) : OkShape (dispatch env sdk name args st) := by
  unfold dispatch
  split
  · exact okShape_store env sdk args st
  · exact okShape_delete env args st
  · exact okShape_search env sdk "sem" args st
  · exact okShape_search env sdk "lex" args st
  · exact okShape_search env sdk "auto" args st
  · exact okShape_recent env sdk args st
  · exact okShape_list env st
  · exact okShape_create env sdk args st
  · exact okShape_info env args st
  · exact okShape_config env st
  · exact okShape_okText _ _

/-- An unrecognized operation name lands in the default branch. -/
theorem dispatch_unknown (env : Env) (sdk : Sdk) (name : String) (args : Args)
    (st : ServerState) (hk : isKnownTool name = false) :
    dispatch env sdk name args st = okText ("Unknown tool: " ++ name) st := by
  unfold dispatch
  split
  all_goals simp_all [isKnownTool]

/-! ## Claim theorems -/

/-- C1: `handleToolCall` is a total fault barrier.  For every operation
name, argument map, state and engine behaviour it returns a well-formed
single-text response (totality of the embedding models the absence of a
propagated exception); any failure raised by a handler or the engine is
converted into a response whose text is `Error: <message>`; an
unrecognized operation name yields the well-formed unknown-operation
response with the state untouched. -/
theorem c1_dispatcher_fault_barrier (env : Env) (sdk : Sdk) (name : String)
    (args : Args) (st : ServerState) :
    (∃ s, (handleToolCall env sdk name args st).1 = textResponse s) ∧
    (∀ m st2, dispatch env sdk name args st = (.error m, st2) →
      handleToolCall env sdk name args st = (textResponse ("Error: " ++ m), st2)) ∧
    (isKnownTool name = false →
      handleToolCall env sdk name args st =
        (textResponse ("Unknown tool: " ++ name), st)) := by
  refine ⟨?_, ?_, ?_⟩
  · rcases hd : dispatch env sdk name args st with ⟨r, st2⟩
    cases r with
    | error m =>
      refine ⟨"Error: " ++ m, ?_⟩
      unfold handleToolCall
      rw [hd]
    | ok resp =>
      obtain ⟨s, hs⟩ := okShape_dispatch env sdk name args st resp st2 hd
      refine ⟨s, ?_⟩
      unfold handleToolCall
      rw [hd, hs]
  · intro m st2 hd
    unfold handleToolCall
    rw [hd]
  · intro hk
    unfold handleToolCall
    rw [dispatch_unknown env sdk name args st hk]
    rfl

/-- Witness for C1 at a concrete unknown operation name. -/
theorem c1_witness :
    handleToolCall {} sdkOk "bogus" {} stFresh =
      (textResponse ("Unknown tool: " ++ "bogus"), stFresh) :=
  (c1_dispatcher_fault_barrier {} sdkOk "bogus" {} stFresh).2.2 (by decide)

/-- C2 counterexample: with no cached handle and a missing file, the
not-found failure of `getCapsule(name, false)` is itself wrapped by the
`catch` into the access-error message, so the surfaced failure is NOT
distinct from the access-error wrapping: the claim fails at capsule name
`x` on a fresh state. -/
theorem c2_counterexample :
    (getCapsule {} sdkFail (some (.jstr "x")) false stFresh).1 =
      .error "Failed to access capsule 'x': Capsule 'x' does not exist" ∧
    ("Failed to access capsule 'x': Capsule 'x' does not exist" : String) ≠
      "Capsule 'x' does not exist" :=
  ⟨rfl, by decide⟩

/-- C2 amended: for every capsule name whose resolved path does not exist
and which has no cached handle, `getCapsule` with `createIfNotExists =
false` fails with the not-found message WRAPPED in the same access-error
format used for engine failures (`Failed to access capsule '<name>':
Capsule '<name>' does not exist`); engine failures during create are
wrapped the same way with the original message preserved. -/
theorem c2_amended_notfound_wrapped (env : Env) (sdk : Sdk) (st : ServerState)
    (nm : String)
    (hcache : cacheGet st.cache (some (.jstr nm)) = none)
    (hfs : st.fs.contains (CAPSULES_DIR env ++ "/" ++ sanitizeName nm ++ ".mv2") = false) :
    getCapsule env sdk (some (.jstr nm)) false st =
      (.error ("Failed to access capsule '" ++ nm ++ "': " ++
        ("Capsule '" ++ nm ++ "' does not exist")), ensureCapsuleDir st) ∧
    (∀ m, sdk.create (CAPSULES_DIR env ++ "/" ++ sanitizeName nm ++ ".mv2") = .error m →
      getCapsule env sdk (some (.jstr nm)) true st =
        (.error ("Failed to access capsule '" ++ nm ++ "': " ++ m), ensureCapsuleDir st)) := by
  have hfs1 : (ensureCapsuleDir st).fs.contains
      (CAPSULES_DIR env ++ "/" ++ sanitizeName nm ++ ".mv2") = false := by
    rw [ensureCapsuleDir_fs]
    exact hfs
  have hnotmem : (CAPSULES_DIR env ++ "/" ++ sanitizeName nm ++ ".mv2") ∉
      (ensureCapsuleDir st).fs := by
    simpa using hfs1
  constructor
  · unfold getCapsule getCapsulePath
    simp [hcache, sanitizeArg, hfs1, accessErr, notExistMsg, jsTemplate, jsTemplateV]
    exact fun hmem => absurd hmem hnotmem
  · intro m hm
    unfold getCapsule getCapsulePath
    simp [hcache, sanitizeArg, hfs1, hm, accessErr, jsTemplate, jsTemplateV]
    exact fun hmem => absurd hmem hnotmem

/-- Witness for C2's amended theorem at a concrete name and fresh state. -/
theorem c2_witness :
    getCapsule {} sdkFail (some (.jstr "x")) false stFresh =
      (.error ("Failed to access capsule '" ++ "x" ++ "': " ++
        ("Capsule '" ++ "x" ++ "' does not exist")), ensureCapsuleDir stFresh) :=
  (c2_amended_notfound_wrapped {} sdkFail stFresh "x" rfl rfl).1

/-- C3: the effective embedding model.  A present non-empty string
override is returned unconditionally; with the override absent or falsy,
a configured (truthy) Ollama host together with the baseline default
`bge-small` yields `openai-small`, and otherwise the configured default
is returned; the default falls back to `bge-small` when nothing is
configured. -/
theorem c3_effective_model_resolution (env : Env) :
    (∀ r : String, r ≠ "" → getEmbeddingModel env (some (.jstr r)) = .jstr r) ∧
    (∀ req : Option JValue, jsTruthyO req = false →
      jsTruthyS (OLLAMA_HOST env) = true → DEFAULT_EMBEDDING_MODEL env = "bge-small" →
      getEmbeddingModel env req = .jstr "openai-small") ∧
    (∀ req : Option JValue, jsTruthyO req = false →
      jsTruthyS (OLLAMA_HOST env) = false →
      getEmbeddingModel env req = .jstr (DEFAULT_EMBEDDING_MODEL env)) ∧
    (∀ req : Option JValue, jsTruthyO req = false →
      DEFAULT_EMBEDDING_MODEL env ≠ "bge-small" →
      getEmbeddingModel env req = .jstr (DEFAULT_EMBEDDING_MODEL env)) ∧
    (env.memvidEmbeddingModel = none → DEFAULT_EMBEDDING_MODEL env = "bge-small") := by
  refine ⟨?_, ?_, ?_, ?_, ?_⟩
  · intro r hr
    simp [getEmbeddingModel, jsTruthy, hr]
  · intro req hreq hhost hdef
    have hbody : getEmbeddingModelDefault env = .jstr "openai-small" := by
      simp [getEmbeddingModelDefault, hhost, hdef]
    cases req with
    | none => simpa [getEmbeddingModel] using hbody
    | some v =>
      simp only [jsTruthyO] at hreq
      simpa [getEmbeddingModel, hreq] using hbody
  · intro req hreq hhost
    have hbody : getEmbeddingModelDefault env = .jstr (DEFAULT_EMBEDDING_MODEL env) := by
      simp [getEmbeddingModelDefault, hhost]
    cases req with
    | none => simpa [getEmbeddingModel] using hbody
    | some v =>
      simp only [jsTruthyO] at hreq
      simpa [getEmbeddingModel, hreq] using hbody
  · intro req hreq hdef
    have hbody : getEmbeddingModelDefault env = .jstr (DEFAULT_EMBEDDING_MODEL env) := by
      simp [getEmbeddingModelDefault, hdef]
    cases req with
    | none => simpa [getEmbeddingModel] using hbody
    | some v =>
      simp only [jsTruthyO] at hreq
      simpa [getEmbeddingModel, hreq] using hbody
  · intro h
    simp [DEFAULT_EMBEDDING_MODEL, jsOrS, h]

/-- Witness for C3: with an Ollama host configured and the default left
unset, the effective model with no override is `openai-small`. -/
theorem c3_witness :
    getEmbeddingModel { ollamaHost := some "http://localhost:11434" } none =
      .jstr "openai-small" :=
  (c3_effective_model_resolution { ollamaHost := some "http://localhost:11434" }).2.1
    none (by decide) (by decide) (by decide)

/-- C4: `getCapsulePath` on a string name is deterministic (the resolved
path does not depend on the state), equals the storage root joined with
the sanitized name plus the fixed `.mv2` extension, sanitization replaces
exactly the characters outside `[A-Za-z0-9_-]` by `_` position by
position, and the file-name part contains only safe characters and dots,
contains no path separator, and is none of the special entries, so the
path never leaves the storage root. -/
theorem c4_capsule_path (env : Env) (name : String) (st st2 : ServerState) :
    ((getCapsulePath env (some (.jstr name)) st).1 =
      (getCapsulePath env (some (.jstr name)) st2).1) ∧
    ((getCapsulePath env (some (.jstr name)) st).1 =
      .ok (CAPSULES_DIR env ++ "/" ++ sanitizeName name ++ ".mv2")) ∧
    (∀ i : Nat, (sanitizeName name).data.get? i =
      (name.data.get? i).map (fun c => if isSafeChar c then c else '_')) ∧
    (∀ c ∈ (sanitizeName name ++ ".mv2").data, isSafeChar c = true ∨ c = '.') ∧
    (∀ c ∈ (sanitizeName name ++ ".mv2").data, c ≠ '/') ∧
    (sanitizeName name ++ ".mv2") ≠ "" ∧
    (sanitizeName name ++ ".mv2") ≠ "." ∧
    (sanitizeName name ++ ".mv2") ≠ ".." := by
  have hdata : (sanitizeName name ++ ".mv2").data =
      name.data.map sanitizeChar ++ ['.', 'm', 'v', '2'] := by
    rw [String.data_append]
    rfl
  have hsafe : ∀ c ∈ (sanitizeName name ++ ".mv2").data, isSafeChar c = true ∨ c = '.' := by
    intro c hc
    rw [hdata] at hc
    rcases List.mem_append.mp hc with hl | hr
    · obtain ⟨c0, _, rfl⟩ := List.mem_map.mp hl
      exact Or.inl (isSafeChar_sanitizeChar c0)
    · simp only [List.mem_cons, List.not_mem_nil, or_false] at hr
      rcases hr with rfl | rfl | rfl | rfl
      · exact Or.inr rfl
      · exact Or.inl (by decide)
      · exact Or.inl (by decide)
      · exact Or.inl (by decide)
  have hlen : (sanitizeName name ++ ".mv2").length = (sanitizeName name).length + 4 := by
    rw [String.length_append]
    rfl
  refine ⟨rfl, rfl, ?_, hsafe, ?_, ?_, ?_, ?_⟩
  · intro i
    simp only [sanitizeName]
    show (name.data.map sanitizeChar).get? i = _
    rw [List.get?_map]
    cases name.data.get? i <;> simp [sanitizeChar]
  · intro c hc heq
    rcases hsafe c hc with h | h
    · rw [heq] at h
      exact absurd h (by decide)
    · rw [heq] at h
      exact absurd h (by decide)
  · intro h
    have h2 := congrArg String.length h
    rw [hlen] at h2
    have h3 : ("" : String).length = 0 := rfl
    omega
  · intro h
    have h2 := congrArg String.length h
    rw [hlen] at h2
    have h3 : ("." : String).length = 1 := rfl
    omega
  · intro h
    have h2 := congrArg String.length h
    rw [hlen] at h2
    have h3 : (".." : String).length = 2 := rfl
    omega

/-- Witness for C4 at a concrete name with unsafe characters. -/
theorem c4_witness :
    (getCapsulePath {} (some (.jstr "a/b c")) stFresh).1 =
      .ok (CAPSULES_DIR {} ++ "/" ++ sanitizeName "a/b c" ++ ".mv2") :=
  (c4_capsule_path {} "a/b c" stFresh stFresh).2.1

/-- C5: `formatResult` renders the title as `Untitled` when absent,
chooses content by the priority snippet, then full text, then preview,
then the empty string (total, with no crash, when all are absent),
appends the labeled score suffix exactly when a score is present, and
trims trailing whitespace from the result. -/
theorem c5_format_result (r : SearchResult) :
    (r.title = none → formatResult r = formatResult { r with title := some "Untitled" }) ∧
    (∀ s : String, r.snippet = some s → s ≠ "" →
      formatResult r = formatResult { r with text := none, preview := none }) ∧
    (r.snippet = none → ∀ t : String, r.text = some t → t ≠ "" →
      formatResult r = formatResult { r with preview := none }) ∧
    (r.snippet = none → r.text = none → r.preview = none →
      formatResult r = jsTrim ("[" ++ titleStr r ++ "]\n" ++ "" ++ "\n" ++ scoreStr r)) ∧
    (r.score = none → formatResult r = jsTrim ("[" ++ titleStr r ++ "]\n" ++ contentStr r)) ∧
    (∀ n : Int, r.score = some n →
      formatResult r =
        jsTrim ("[" ++ titleStr r ++ "]\n" ++ contentStr r ++ "\nScore: " ++ toString n)) := by
  refine ⟨?_, ?_, ?_, ?_, ?_, ?_⟩
  · intro h
    simp [formatResult, titleStr, contentStr, scoreStr, jsOrS, h]
  · intro s h1 h2
    simp [formatResult, titleStr, contentStr, scoreStr, jsOrS, h1, h2]
  · intro h0 t h1 h2
    simp [formatResult, titleStr, contentStr, scoreStr, jsOrS, h0, h1, h2]
  · intro h1 h2 h3
    simp [formatResult, contentStr, jsOrS, h1, h2, h3]
  · intro h
    have hz : scoreStr r = "" := by simp [scoreStr, h]
    rw [formatResult, hz, String.append_empty]
    exact jsTrim_append_newline _
  · intro n h
    have hz : scoreStr r = "Score: " ++ toString n := by simp [scoreStr, h]
    rw [formatResult, hz]
    have hmerge : ("\n" : String) ++ ("Score: " ++ toString n) =
        "\nScore: " ++ toString n := by
      rw [← String.append_assoc]
      have hl : ("\n" : String) ++ "Score: " = "\nScore: " := by decide
      rw [hl]
    simp only [String.append_assoc]
    rw [hmerge]

/-- Witness for C5: a hit carrying both snippet and text renders from the
snippet (the text and preview are irrelevant). -/
theorem c5_witness :
    formatResult { snippet := some "S", text := some "X", preview := some "P" } =
      formatResult { ({ snippet := some "S", text := some "X", preview := some "P" } :
        SearchResult) with text := none, preview := none } :=
  (c5_format_result { snippet := some "S", text := some "X", preview := some "P" }).2.1
    "S" rfl (by decide)

/-- C6: for every argument map whose confirm flag is not exactly the
boolean `true`, the delete operation returns the not-confirmed response
and the state — files, cache, and root flag — is completely unchanged. -/
theorem c6_delete_unconfirmed_no_change (env : Env) (sdk : Sdk) (args : Args)
    (st : ServerState) (h : jsStrictEqTrue args.confirm = false) :
    handleToolCall env sdk "delete_capsule" args st =
      (textResponse "Deletion not confirmed. Set 'confirm' to true to delete.", st) := by
  have hd : dispatch env sdk "delete_capsule" args st = handleDeleteCapsule env args st := rfl
  unfold handleToolCall
  rw [hd]
  unfold handleDeleteCapsule
  rw [h]
  rfl

/-- Witness for C6 with the confirm flag set to the string "true". -/
theorem c6_witness :
    handleToolCall {} sdkOk "delete_capsule" { confirm := some (.jstr "true") } stFresh =
      (textResponse "Deletion not confirmed. Set 'confirm' to true to delete.", stFresh) :=
  c6_delete_unconfirmed_no_change {} sdkOk { confirm := some (.jstr "true") } stFresh rfl

/-- C7 counterexample: deleting a missing capsule with confirmation DOES
mutate the filesystem when the storage root does not exist yet — the path
resolution creates the storage root directory.  On a fresh state the
root-exists flag flips from false to true, so "performs no filesystem
mutation of any kind" fails, although the response does report
non-existence. -/
theorem c7_counterexample :
    (handleToolCall {} sdkFail "delete_capsule"
      { capsule := some (.jstr "x"), confirm := some (.jbool true) } stFresh).2.rootExists
        = true ∧
    stFresh.rootExists = false ∧
    (handleToolCall {} sdkFail "delete_capsule"
      { capsule := some (.jstr "x"), confirm := some (.jbool true) } stFresh).1 =
        textResponse "Capsule 'x' does not exist" :=
  ⟨rfl, rfl, rfl⟩

/-- C7 amended: for every capsule name whose resolved path does not
exist, the delete operation with confirm = true returns a response
reporting non-existence, and the only state change is ensuring that the
storage root directory exists: no capsule file is created or removed and
the handle cache is untouched. -/
theorem c7_amended_delete_missing (env : Env) (sdk : Sdk) (args : Args)
    (st : ServerState) (nm : String)
    (hc : jsStrictEqTrue args.confirm = true)
    (hn : args.capsule = some (.jstr nm))
    (hfs : st.fs.contains (CAPSULES_DIR env ++ "/" ++ sanitizeName nm ++ ".mv2") = false) :
    handleToolCall env sdk "delete_capsule" args st =
      (textResponse ("Capsule '" ++ nm ++ "' does not exist"), ensureCapsuleDir st) := by
  have hfs1 : (ensureCapsuleDir st).fs.contains
      (CAPSULES_DIR env ++ "/" ++ sanitizeName nm ++ ".mv2") = false := by
    rw [ensureCapsuleDir_fs]
    exact hfs
  have hnotmem : (CAPSULES_DIR env ++ "/" ++ sanitizeName nm ++ ".mv2") ∉
      (ensureCapsuleDir st).fs := by
    simpa using hfs1
  have hd : dispatch env sdk "delete_capsule" args st = handleDeleteCapsule env args st := rfl
  unfold handleToolCall
  rw [hd]
  unfold handleDeleteCapsule getCapsulePath
  rw [hc, hn]
  simp [sanitizeArg, hnotmem, okText, jsTemplate, jsTemplateV]

/-- Witness for C7's amended theorem on a fresh state. -/
theorem c7_witness :
    handleToolCall {} sdkOk "delete_capsule"
      { capsule := some (.jstr "notes"), confirm := some (.jbool true) } stFresh =
      (textResponse ("Capsule '" ++ "notes" ++ "' does not exist"),
        ensureCapsuleDir stFresh) :=
  c7_amended_delete_missing {} sdkOk
    { capsule := some (.jstr "notes"), confirm := some (.jbool true) } stFresh "notes"
    rfl rfl rfl

/-- C8 counterexample: with the Ollama host `http://x/` (trailing slash)
and no explicit base URL, `configureOllama` sets `http://x/v1`, while the
claim's derivation — the host with `/v1` appended, the host not ending in
`/v1` — would give `http://x//v1`: the code first strips one trailing
slash, so the claim as stated fails at this host. -/
theorem c8_counterexample :
    configureOllama { ollamaHost := some "http://x/" } = some "http://x/v1" ∧
    ("http://x/v1" : String) ≠ "http://x/" ++ "/v1" :=
  ⟨rfl, by decide⟩

/-- C8 amended: `configureOllama` sets the cloud base URL from the
local-inference host only when no truthy base URL is already configured —
a configured (non-empty) operator value is never overwritten, and with no
truthy host nothing is changed — and the derived value is the host with a
single trailing `/` removed and `/v1` appended, unless the host already
ends in `/v1`, in which case the host is used as-is. -/
theorem c8_amended_configure_ollama (env : Env) :
    (jsTruthyS env.openaiBaseUrl = true → configureOllama env = env.openaiBaseUrl) ∧
    (jsTruthyS (OLLAMA_HOST env) = false → configureOllama env = env.openaiBaseUrl) ∧
    (∀ host : String, OLLAMA_HOST env = some host →
      jsTruthyS (OLLAMA_HOST env) = true → jsTruthyS env.openaiBaseUrl = false →
      configureOllama env =
        some (if jsEndsWith host "/v1" then host
          else jsStripTrailingSlash host ++ "/v1")) := by
  refine ⟨?_, ?_, ?_⟩
  · intro h
    simp [configureOllama, h]
  · intro h
    simp [configureOllama, h]
  · intro host hh ht hb
    rw [hh] at ht
    simp [configureOllama, hh, ht, hb]

/-- Witness for C8's amended theorem at a host without the `/v1`
suffix. -/
theorem c8_witness :
    configureOllama { ollamaHost := some "http://localhost:11434" } =
      some (if jsEndsWith "http://localhost:11434" "/v1" then "http://localhost:11434"
        else jsStripTrailingSlash "http://localhost:11434" ++ "/v1") :=
  (c8_amended_configure_ollama { ollamaHost := some "http://localhost:11434" }).2.2
    "http://localhost:11434" rfl rfl rfl

/-- C9 counterexample: for the directory entry `a.mv2b.mv2` (which ends
with the extension), the list operation removes the FIRST occurrence of
`.mv2`, yielding `ab.mv2` and not the trailing-extension strip
`a.mv2b`. -/
theorem c9_counterexample :
    listCapsules ["a.mv2b.mv2"] = ["ab.mv2"] ∧
    ("ab.mv2" : String) ≠ "a.mv2b" :=
  ⟨rfl, by decide⟩

/-- C9 amended: the list operation keeps exactly the files ending with
`.mv2` and removes the FIRST occurrence of `.mv2` from each name; when
the name contains no dot before the extension — true of every name
produced by the sanitizer — this equals stripping the trailing extension;
files not ending with `.mv2` are omitted. -/
theorem c9_amended_list_capsules (g f : String)
    (hg : ∀ c ∈ g.data, c ≠ '.')
    (hf : jsEndsWith f ".mv2" = false) :
    listCapsules [g ++ ".mv2"] = [g] ∧ listCapsules [f] = [] := by
  constructor
  · unfold listCapsules
    simp only [List.filter_cons, List.filter_nil, jsEndsWith_append_ext, if_true,
      List.map_cons, List.map_nil, List.cons.injEq, and_true]
    unfold jsReplaceFirst
    have hd : (g ++ ".mv2").data = g.data ++ ".mv2".data := String.data_append g ".mv2"
    have he : ("" : String).data = [] := rfl
    rw [hd, he, replaceFirstAux_strip g.data hg]
  · unfold listCapsules
    simp [List.filter_singleton, hf]

/-- Witness for C9's amended theorem at a sanitized name and a
non-matching file. -/
theorem c9_witness :
    listCapsules ["notes" ++ ".mv2"] = ["notes"] ∧ listCapsules ["readme.txt"] = [] :=
  c9_amended_list_capsules "notes" "readme.txt" (by decide) (by decide)

/-- C10: when the supplied limit argument is absent or falsy (in
particular an explicit 0), the `k` value computed by the `|| 10` idiom is
exactly 10, and each of the search and recent operations behaves exactly
as if the limit had been the explicit number 10 — for every engine
behaviour — so a limit of 0 is never passed through to the engine's
find/timeline call. -/
theorem c10_default_limit (env : Env) (sdk : Sdk) (args : Args) (st : ServerState)
    (h : jsTruthyO args.limit = false) :
    jsOrJ args.limit (.jnum 10) = .jnum 10 ∧
    handleToolCall env sdk "semantic_search" args st =
      handleToolCall env sdk "semantic_search" { args with limit := some (.jnum 10) } st ∧
    handleToolCall env sdk "text_search" args st =
      handleToolCall env sdk "text_search" { args with limit := some (.jnum 10) } st ∧
    handleToolCall env sdk "smart_search" args st =
      handleToolCall env sdk "smart_search" { args with limit := some (.jnum 10) } st ∧
    handleToolCall env sdk "recent_memories" args st =
      handleToolCall env sdk "recent_memories" { args with limit := some (.jnum 10) } st := by
  have hj : jsOrJ args.limit (.jnum 10) = .jnum 10 := jsOrJ_falsy _ _ h
  have hsearch : ∀ mode : String, handleSearch env sdk mode args st =
      handleSearch env sdk mode { args with limit := some (.jnum 10) } st := by
    intro mode
    unfold handleSearch
    rw [hj]
    rfl
  have hrecent : handleRecentMemories env sdk args st =
      handleRecentMemories env sdk { args with limit := some (.jnum 10) } st := by
    unfold handleRecentMemories
    rw [hj]
    rfl
  refine ⟨hj, ?_, ?_, ?_, ?_⟩
  · have hd : dispatch env sdk "semantic_search" args st =
        dispatch env sdk "semantic_search" { args with limit := some (.jnum 10) } st :=
      hsearch "sem"
    unfold handleToolCall
    rw [hd]
  · have hd : dispatch env sdk "text_search" args st =
        dispatch env sdk "text_search" { args with limit := some (.jnum 10) } st :=
      hsearch "lex"
    unfold handleToolCall
    rw [hd]
  · have hd : dispatch env sdk "smart_search" args st =
        dispatch env sdk "smart_search" { args with limit := some (.jnum 10) } st :=
      hsearch "auto"
    unfold handleToolCall
    rw [hd]
  · have hd : dispatch env sdk "recent_memories" args st =
        dispatch env sdk "recent_memories" { args with limit := some (.jnum 10) } st :=
      hrecent
    unfold handleToolCall
    rw [hd]

/-- Witness for C10 at an explicit limit of 0. -/
theorem c10_witness :
    jsOrJ (some (.jnum 0)) (.jnum 10) = .jnum 10 :=
  (c10_default_limit {} sdkOk { limit := some (.jnum 0) } stFresh (by decide)).1

end Memvid
